import Mathlib

/-
Verification of the vals-operator credential lifecycle and reconciliation engine.

The Go sources are shallowly embedded: Go maps (map[string]string,
map[string][]byte) are represented as association lists, Go durations as
nanosecond counts (Nat), Unix timestamps as Int, and each reconciliation or
loop body as a pure function from its inputs (object spec, current destination
Secret, current time, backend oracle responses) to the trace of backend calls,
the number of writes to the destination Secret, and the returned outcome.
External collaborators (the template engine, the md5 digest, the HTTP backend)
enter as explicit function parameters or oracle fields, never as stubs of the
repository's own logic.
-/

set_option autoImplicit false

/-! ## Go map model

A Go `map[string]string` is modelled as an association list with unique keys
(`SMap`); `map[string][]byte` as `BMap` with byte values as `List Nat`.
Indexing a missing key yields the zero value, mirrored by `annGet`.
-/

abbrev SMap := List (String × String)

abbrev BMap := List (String × List Nat)

/-- Go map read `v, ok := m[k]` over the association-list model. -/
def lookupS : SMap → String → Option String
  | [], _ => none
  | kv :: rest, k => if kv.1 = k then some kv.2 else lookupS rest k

/-- Go map read `v, ok := m[k]` for byte-slice values. -/
def lookupB : BMap → String → Option (List Nat)
  | [], _ => none
  | kv :: rest, k => if kv.1 = k then some kv.2 else lookupB rest k

/-- Go map index `m[k]` on a `map[string]string`: missing keys give `""`. -/
def annGet (m : SMap) (k : String) : String := (lookupS m k).getD ("")

/-- Go `delete(m, k)`. -/
def deleteKey : SMap → String → SMap
  | [], _ => []
  | kv :: rest, k => if kv.1 = k then deleteKey rest k else kv :: deleteKey rest k

/-- Go map assignment `m[k] = v`: replaces the entry for `k`, or adds one. -/
def mapSet (m : SMap) (k v : String) : SMap :=
  deleteKey m k ++ [(k, v)]

/-- utils.MergeMap (src/utils/utils.go): `for k, v := range src: dst[k] = v`. -/
def mergeMap (dst src : SMap) : SMap :=
  src.foldl (fun acc kv => mapSet acc kv.1 kv.2) dst

/-- Keys of a map, in representation order. -/
def keysOf {β : Type} (m : List (String × β)) : List String := m.map Prod.fst

/-! ### Lookup lemmas for the map model -/

theorem lookupS_append (a b : SMap) (k : String) :
    lookupS (a ++ b) k = match lookupS a k with
      | some v => some v
      | none => lookupS b k := by
  induction a with
  | nil => simp [lookupS]
  | cons kv rest ih =>
    by_cases h : kv.1 = k
    · simp [lookupS, h]
    · simp [lookupS, h, ih]

theorem lookupS_deleteKey (m : SMap) (k k2 : String) :
    lookupS (deleteKey m k) k2 = if k2 = k then none else lookupS m k2 := by
  induction m with
  | nil => by_cases h : k2 = k <;> simp [deleteKey, lookupS, h]
  | cons kv rest ih =>
    by_cases hk : kv.1 = k
    · rw [show deleteKey (kv :: rest) k = deleteKey rest k by simp [deleteKey, hk]]
      rw [ih]
      by_cases h2 : k2 = k
      · simp [h2]
      · have hne : ¬ kv.1 = k2 := by
          intro hh
          exact h2 (hh.symm.trans hk)
        simp [lookupS, h2, hne]
    · rw [show deleteKey (kv :: rest) k = kv :: deleteKey rest k by simp [deleteKey, hk]]
      by_cases h2 : kv.1 = k2
      · have hne : ¬ k2 = k := by
          intro hh
          exact hk (h2.trans hh)
        simp [lookupS, h2, hne]
      · simp [lookupS, h2, ih]

theorem lookupS_mapSet (m : SMap) (k v k2 : String) :
    lookupS (mapSet m k v) k2 = if k2 = k then some v else lookupS m k2 := by
  unfold mapSet
  rw [lookupS_append, lookupS_deleteKey]
  by_cases h : k2 = k
  · simp [lookupS, h]
  · have hne : ¬ k = k2 := fun hh => h hh.symm
    cases hm : lookupS m k2 <;> simp [lookupS, h, hne]

/-- Membership of an entry under unique keys determines the lookup. -/
theorem lookupS_of_mem_nodup (m : SMap) (k v : String)
    (hnd : (keysOf m).Nodup) (hmem : (k, v) ∈ m) : lookupS m k = some v := by
  induction m with
  | nil => cases hmem
  | cons kv rest ih =>
    rcases List.mem_cons.mp hmem with h | h
    · simp [lookupS, h.symm]
    · have hk : kv.1 ≠ k := by
        intro hh
        have : k ∈ keysOf rest := List.mem_map.mpr ⟨(k, v), h, rfl⟩
        have hnotin : kv.1 ∉ keysOf rest := (List.nodup_cons.mp hnd).1
        rw [hh] at hnotin
        exact hnotin this
      have hnd2 : (keysOf rest).Nodup := (List.nodup_cons.mp hnd).2
      simp [lookupS, hk, ih hnd2 h]

theorem mem_of_lookupS (m : SMap) (k v : String) (h : lookupS m k = some v) :
    (k, v) ∈ m := by
  induction m with
  | nil => simp [lookupS] at h
  | cons kv rest ih =>
    by_cases hk : kv.1 = k
    · simp [lookupS, hk] at h
      subst h
      exact List.mem_cons.mpr (Or.inl (by cases kv; simp_all))
    · simp [lookupS, hk] at h
      exact List.mem_cons.mpr (Or.inr (ih h))

theorem lookupS_eq_none_iff (m : SMap) (k : String) :
    lookupS m k = none ↔ k ∉ keysOf m := by
  induction m with
  | nil => simp [lookupS, keysOf]
  | cons kv rest ih =>
    by_cases hk : kv.1 = k
    · simp [lookupS, hk, keysOf]
    · simp [lookupS, hk, keysOf] at ih ⊢
      constructor
      · intro h
        exact ⟨fun hh => hk hh.symm, (ih.mp h)⟩
      · intro h
        exact ih.mpr h.2

/-- Lookups are invariant under permutation when keys are unique. -/
theorem lookupS_eq_of_perm (m1 m2 : SMap) (hp : m1.Perm m2)
    (hnd : (keysOf m1).Nodup) (k : String) : lookupS m1 k = lookupS m2 k := by
  have hnd2 : (keysOf m2).Nodup := (hp.map Prod.fst).nodup_iff.mp hnd
  cases h : lookupS m1 k with
  | some v =>
    have := mem_of_lookupS m1 k v h
    exact (lookupS_of_mem_nodup m2 k v hnd2 (hp.mem_iff.mp this)).symm
  | none =>
    have hk := (lookupS_eq_none_iff m1 k).mp h
    have : k ∉ keysOf m2 := by
      intro hh
      exact hk ((hp.map Prod.fst).mem_iff.mpr hh)
    exact ((lookupS_eq_none_iff m2 k).mpr this).symm

theorem deleteKey_sublist (m : SMap) (k : String) : (deleteKey m k).Sublist m := by
  induction m with
  | nil => simp [deleteKey]
  | cons kv rest ih =>
    by_cases hk : kv.1 = k
    · rw [show deleteKey (kv :: rest) k = deleteKey rest k by simp [deleteKey, hk]]
      exact ih.trans (List.sublist_cons_self kv rest)
    · rw [show deleteKey (kv :: rest) k = kv :: deleteKey rest k by simp [deleteKey, hk]]
      exact ih.cons₂ kv

theorem not_mem_keys_deleteKey (m : SMap) (k : String) :
    k ∉ keysOf (deleteKey m k) := by
  induction m with
  | nil => simp [deleteKey, keysOf]
  | cons kv rest ih =>
    by_cases hk : kv.1 = k
    · rw [show deleteKey (kv :: rest) k = deleteKey rest k by simp [deleteKey, hk]]
      exact ih
    · rw [show deleteKey (kv :: rest) k = kv :: deleteKey rest k by simp [deleteKey, hk]]
      intro hmem
      simp only [keysOf, List.map_cons, List.mem_cons] at hmem
      rcases hmem with h | h
      · exact hk h.symm
      · exact ih h

theorem nodup_keys_deleteKey (m : SMap) (k : String) (h : (keysOf m).Nodup) :
    (keysOf (deleteKey m k)).Nodup := by
  exact ((deleteKey_sublist m k).map Prod.fst).nodup h

theorem nodup_keys_mapSet (m : SMap) (k v : String) (h : (keysOf m).Nodup) :
    (keysOf (mapSet m k v)).Nodup := by
  unfold mapSet
  rw [show keysOf (deleteKey m k ++ [(k, v)]) = keysOf (deleteKey m k) ++ [k] by
    simp [keysOf]]
  refine List.Nodup.append (nodup_keys_deleteKey m k h) (List.nodup_singleton k) ?_
  intro a ha hb
  rw [List.mem_singleton.mp hb] at ha
  exact not_mem_keys_deleteKey m k ha

theorem nodup_keys_mergeMap (dst src : SMap) (h : (keysOf dst).Nodup) :
    (keysOf (mergeMap dst src)).Nodup := by
  induction src generalizing dst with
  | nil => exact h
  | cons kv rest ih =>
    exact ih (mapSet dst kv.1 kv.2) (nodup_keys_mapSet dst kv.1 kv.2 h)

/-- Lookup after a Go-style map merge: the last write for a key in `src` wins,
otherwise the entry of `dst` is kept. -/
theorem lookupS_mergeMap (dst src : SMap) (k : String) :
    lookupS (mergeMap dst src) k =
      match lookupS src.reverse k with
      | some v => some v
      | none => lookupS dst k := by
  induction src generalizing dst with
  | nil => simp [mergeMap, lookupS]
  | cons kv rest ih =>
    rw [show mergeMap dst (kv :: rest) = mergeMap (mapSet dst kv.1 kv.2) rest from rfl]
    rw [ih]
    rw [show (kv :: rest).reverse = rest.reverse ++ [kv] by simp]
    rw [lookupS_append, lookupS_mapSet]
    cases hr : lookupS rest.reverse k with
    | some v => simp
    | none =>
      by_cases hk : k = kv.1
      · simp [lookupS, hk]
      · have : ¬ kv.1 = k := fun hh => hk hh.symm
        simp [lookupS, hk, this]

theorem lookupB_of_mem_nodup (m : BMap) (k : String) (v : List Nat)
    (hnd : (keysOf m).Nodup) (hmem : (k, v) ∈ m) : lookupB m k = some v := by
  induction m with
  | nil => cases hmem
  | cons kv rest ih =>
    rcases List.mem_cons.mp hmem with h | h
    · simp [lookupB, h.symm]
    · have hk : kv.1 ≠ k := by
        intro hh
        have : k ∈ keysOf rest := List.mem_map.mpr ⟨(k, v), h, rfl⟩
        have hnotin : kv.1 ∉ keysOf rest := (List.nodup_cons.mp hnd).1
        rw [hh] at hnotin
        exact hnotin this
      have hnd2 : (keysOf rest).Nodup := (List.nodup_cons.mp hnd).2
      simp [lookupB, hk, ih hnd2 h]

/-! ## Annotation and label keys (src/controllers/common.go) -/

def leaseIdKey : String := "vals-operator.digitalis.io/lease-id"

def leaseDurationKey : String := "vals-operator.digitalis.io/lease-duration"

def expiresOnKey : String := "vals-operator.digitalis.io/expires-on"

def lastUpdatedKey : String := "vals-operator.digitalis.io/last-updated"

def forceCreateKey : String := "vals-operator.digitalis.io/force"

def templateHashKey : String := "vals-operator.digitalis.io/hash"

def managedByKey : String := "app.kubernetes.io/managed-by"

def lastAppliedConfigKey : String := "kubectl.kubernetes.io/last-applied-configuration"

/-! ## utils.StringMapsMatch and utils.ByteMapsMatch (src/utils/utils.go) -/

/-- utils.StringMapsMatch: same keys and values outside `ignoreKeys`,
with the both-empty fast path of the source. -/
def stringMapsMatch (m1 m2 : SMap) (ignoreKeys : List String) : Bool :=
  if m1.isEmpty && m2.isEmpty then true
  else
    m1.all (fun kv => decide (kv.1 ∈ ignoreKeys) || decide (lookupS m2 kv.1 = some kv.2)) &&
    m2.all (fun kv => decide (kv.1 ∈ ignoreKeys) || decide (lookupS m1 kv.1 = some kv.2))

/-- utils.ByteMapsMatch: equal sizes and byte-for-byte equal values per key. -/
def byteMapsMatch (m1 m2 : BMap) : Bool :=
  decide (m1.length = m2.length) &&
  m1.all (fun kv =>
    match lookupB m2 kv.1 with
    | none => false
    | some v2 =>
      decide (v2.length = kv.2.length) && (kv.2.zip v2).all (fun p => decide (p.1 = p.2)))

theorem zip_self_all_eq (l : List Nat) :
    (l.zip l).all (fun p => decide (p.1 = p.2)) = true := by
  induction l with
  | nil => rfl
  | cons x xs ih => simp [List.zip, ih]

/-- A map with unique keys matches itself byte for byte. -/
theorem byteMapsMatch_self (m : BMap) (hnd : (keysOf m).Nodup) :
    byteMapsMatch m m = true := by
  unfold byteMapsMatch
  rw [Bool.and_eq_true]
  refine ⟨by simp, ?_⟩
  rw [List.all_eq_true]
  intro kv hmem
  rw [lookupB_of_mem_nodup m kv.1 kv.2 hnd (by cases kv; exact hmem)]
  simp [zip_self_all_eq]

/-- Two unique-key maps whose lookups agree outside the ignore list satisfy
utils.StringMapsMatch. -/
theorem stringMapsMatch_of_agree (m1 m2 : SMap) (ig : List String)
    (h1 : (keysOf m1).Nodup) (h2 : (keysOf m2).Nodup)
    (hag : ∀ k, k ∉ ig → lookupS m1 k = lookupS m2 k) :
    stringMapsMatch m1 m2 ig = true := by
  unfold stringMapsMatch
  by_cases hemp : (m1.isEmpty && m2.isEmpty) = true
  · simp [hemp]
  · rw [if_neg hemp]
    rw [Bool.and_eq_true]
    refine ⟨?_, ?_⟩ <;> rw [List.all_eq_true] <;> intro kv hmem
    · by_cases hig : kv.1 ∈ ig
      · simp [hig]
      · have : lookupS m2 kv.1 = some kv.2 := by
          rw [← hag kv.1 hig]
          exact lookupS_of_mem_nodup m1 kv.1 kv.2 h1 (by cases kv; exact hmem)
        simp [this]
    · by_cases hig : kv.1 ∈ ig
      · simp [hig]
      · have : lookupS m1 kv.1 = some kv.2 := by
          rw [hag kv.1 hig]
          exact lookupS_of_mem_nodup m2 kv.1 kv.2 h2 (by cases kv; exact hmem)
        simp [this]

/-! ## The destination Secret and the ValsSecret write path
(src/controllers/valssecret_controller.go) -/

/-- A destination Secret as far as the write-suppression logic reads it:
name, labels, annotations and data. The fresh `corev1.Secret` value created
when none exists yet appears as `emptySecretObj` (name `""`). -/
structure SecretObj where
  name : String
  labels : SMap
  annos : SMap
  data : BMap
deriving DecidableEq

def emptySecretObj : SecretObj := { name := "", labels := [], annos := [], data := [] }

/-- The fields of a ValsSecret object that the write path reads:
its name, the optional Spec.Name override, and its labels and annotations. -/
structure ValsSecretDef where
  name : String
  specName : String
  labels : SMap
  annos : SMap
deriving DecidableEq

/-- secretNeedsUpdate (valssecret_controller.go lines 377-388).
The `secret == nil` disjunct of the source is absorbed into the
`secret.Name == ""` case: the only nil-capable caller substitutes a fresh
empty Secret before the check. -/
def secretNeedsUpdate (sDef : ValsSecretDef) (secret : SecretObj) (newData : BMap) : Bool :=
  decide (secret.name = "") ||
  !(byteMapsMatch secret.data newData) ||
  !(stringMapsMatch secret.annos sDef.annos [lastAppliedConfigKey, lastUpdatedKey]) ||
  !(stringMapsMatch secret.labels sDef.labels [managedByKey])

/-- upsertSecret (valssecret_controller.go lines 247-321), restricted to its
effect on the destination Secret: number of create/update calls issued and the
resulting stored Secret. `nowStamp` stands for the formatted
`time.Now().UTC()` value written into the last-updated annotation. -/
def upsertValsSecret (sDef : ValsSecretDef) (existing : Option SecretObj)
    (data : BMap) (nowStamp : String) : Nat × Option SecretObj :=
  let secret := existing.getD emptySecretObj
  if !(secretNeedsUpdate sDef secret data) then (0, existing)
  else
    let newName := if sDef.specName ≠ "" then sDef.specName else sDef.name
    let labels2 := mapSet (mergeMap secret.labels sDef.labels) managedByKey ("vals-operator")
    let annos2 :=
      deleteKey (mapSet (mergeMap secret.annos sDef.annos) lastUpdatedKey nowStamp)
        lastAppliedConfigKey
    (1, some { name := newName, labels := labels2, annos := annos2, data := data })

/-- Two consecutive reconcile write attempts from no existing Secret,
with the same resolved data both times. -/
def twoPassWrites (sDef : ValsSecretDef) (data : BMap) (stamp1 stamp2 : String) : Nat :=
  (upsertValsSecret sDef none data stamp1).1 +
  (upsertValsSecret sDef (upsertValsSecret sDef none data stamp1).2 data stamp2).1

theorem lookupS_mergeMap_nil (src : SMap) (hnd : (keysOf src).Nodup) (k : String) :
    lookupS (mergeMap [] src) k = lookupS src k := by
  rw [lookupS_mergeMap]
  have hndrev : (keysOf src.reverse).Nodup := by
    simpa [keysOf, List.map_reverse] using (List.nodup_reverse.mpr hnd)
  have hrev : lookupS src.reverse k = lookupS src k :=
    lookupS_eq_of_perm src.reverse src (List.reverse_perm src) hndrev k
  rw [hrev]
  cases lookupS src k <;> simp [lookupS]

/-- Claim C5: with an existing named destination Secret, byte-for-byte equal
data, and annotations and labels matching outside the fixed ignore lists, the
ValsSecret write path performs no create or update; and reconciling twice in a
row from scratch with unchanged inputs performs exactly one write. -/
theorem c5_update_suppression
    (sDef : ValsSecretDef) (secret : SecretObj) (newData : BMap)
    (stamp1 stamp2 : String)
    (hname : secret.name ≠ "")
    (hdata : secret.data = newData)
    (hnddata : (keysOf newData).Nodup)
    (hndann1 : (keysOf secret.annos).Nodup)
    (hndann2 : (keysOf sDef.annos).Nodup)
    (hndlab1 : (keysOf secret.labels).Nodup)
    (hndlab2 : (keysOf sDef.labels).Nodup)
    (hagann : ∀ k, k ∉ [lastAppliedConfigKey, lastUpdatedKey] →
      lookupS secret.annos k = lookupS sDef.annos k)
    (haglab : ∀ k, k ∉ [managedByKey] →
      lookupS secret.labels k = lookupS sDef.labels k)
    (hdefname : (if sDef.specName ≠ "" then sDef.specName else sDef.name) ≠ "") :
    secretNeedsUpdate sDef secret newData = false
    ∧ (upsertValsSecret sDef (some secret) newData stamp1).1 = 0
    ∧ twoPassWrites sDef newData stamp1 stamp2 = 1 := by
  have hmatch1 : stringMapsMatch secret.annos sDef.annos
      [lastAppliedConfigKey, lastUpdatedKey] = true :=
    stringMapsMatch_of_agree _ _ _ hndann1 hndann2 hagann
  have hmatch2 : stringMapsMatch secret.labels sDef.labels [managedByKey] = true :=
    stringMapsMatch_of_agree _ _ _ hndlab1 hndlab2 haglab
  have hbytes : byteMapsMatch secret.data newData = true := by
    rw [hdata]
    exact byteMapsMatch_self newData hnddata
  have hupd : secretNeedsUpdate sDef secret newData = false := by
    simp [secretNeedsUpdate, hname, hbytes, hmatch1, hmatch2]
  refine ⟨hupd, ?_, ?_⟩
  · simp [upsertValsSecret, hupd]
  · -- first pass: the fresh empty Secret always needs the write
    have hpass1 : upsertValsSecret sDef none newData stamp1 =
        (1, some { name := if sDef.specName ≠ "" then sDef.specName else sDef.name,
                   labels := mapSet (mergeMap [] sDef.labels) managedByKey ("vals-operator"),
                   annos := deleteKey
                     (mapSet (mergeMap [] sDef.annos) lastUpdatedKey stamp1)
                     lastAppliedConfigKey,
                   data := newData }) := rfl
    set w : SecretObj :=
      { name := if sDef.specName ≠ "" then sDef.specName else sDef.name,
        labels := mapSet (mergeMap [] sDef.labels) managedByKey ("vals-operator"),
        annos := deleteKey (mapSet (mergeMap [] sDef.annos) lastUpdatedKey stamp1)
          lastAppliedConfigKey,
        data := newData } with hw
    -- second pass: the written Secret matches the definition, so no write
    have hndwa : (keysOf w.annos).Nodup := by
      rw [hw]
      exact nodup_keys_deleteKey _ _ (nodup_keys_mapSet _ _ _
        (nodup_keys_mergeMap [] sDef.annos (by simp [keysOf])))
    have hndwl : (keysOf w.labels).Nodup := by
      rw [hw]
      exact nodup_keys_mapSet _ _ _ (nodup_keys_mergeMap [] sDef.labels (by simp [keysOf]))
    have hagann2 : ∀ k, k ∉ [lastAppliedConfigKey, lastUpdatedKey] →
        lookupS w.annos k = lookupS sDef.annos k := by
      intro k hk
      simp only [List.mem_cons, List.mem_singleton, not_or] at hk
      rw [hw]
      show lookupS (deleteKey (mapSet (mergeMap [] sDef.annos) lastUpdatedKey stamp1)
        lastAppliedConfigKey) k = lookupS sDef.annos k
      rw [lookupS_deleteKey, if_neg hk.1, lookupS_mapSet, if_neg hk.2.1,
        lookupS_mergeMap_nil sDef.annos hndann2]
    have haglab2 : ∀ k, k ∉ [managedByKey] →
        lookupS w.labels k = lookupS sDef.labels k := by
      intro k hk
      simp only [List.mem_singleton] at hk
      rw [hw]
      show lookupS (mapSet (mergeMap [] sDef.labels) managedByKey ("vals-operator")) k
        = lookupS sDef.labels k
      rw [lookupS_mapSet, if_neg hk, lookupS_mergeMap_nil sDef.labels hndlab2]
    have hupd2 : secretNeedsUpdate sDef w newData = false := by
      have hm1 := stringMapsMatch_of_agree _ _ _ hndwa hndann2 hagann2
      have hm2 := stringMapsMatch_of_agree _ _ _ hndwl hndlab2 haglab2
      have hb : byteMapsMatch w.data newData = true := by
        rw [hw]
        exact byteMapsMatch_self newData hnddata
      have hwname : w.name ≠ "" := by
        rw [hw]
        simpa using hdefname
      unfold secretNeedsUpdate
      rw [hb, hm1, hm2, decide_eq_false hwname]
      rfl
    have hpass2 : (upsertValsSecret sDef (some w) newData stamp2).1 = 0 := by
      simp [upsertValsSecret, hupd2]
    unfold twoPassWrites
    rw [hpass1]
    simpa using hpass2

def c5SampleDef : ValsSecretDef :=
  { name := "vs", specName := "", labels := [("app", "demo")], annos := [("team", "dev")] }

def c5SampleSecret : SecretObj :=
  { name := "vs", labels := [("app", "demo")], annos := [("team", "dev")],
    data := [("user", [98, 111, 98])] }

def c5SampleData : BMap := [("user", [98, 111, 98])]

/-- Witness for C5 at a concrete ValsSecret and destination Secret. -/
theorem c5_update_suppression_witness :
    secretNeedsUpdate c5SampleDef c5SampleSecret c5SampleData = false
    ∧ (upsertValsSecret c5SampleDef (some c5SampleSecret) c5SampleData ("t1")).1 = 0
    ∧ twoPassWrites c5SampleDef c5SampleData ("t1") ("t2") = 1 :=
  c5_update_suppression c5SampleDef c5SampleSecret c5SampleData ("t1") ("t2")
    (by decide) (by rfl) (by decide) (by decide) (by decide) (by decide) (by decide)
    (fun _ _ => rfl) (fun _ _ => rfl) (by decide)

/-! ## The backoff utility (ExponentialBackoff, src/main.go lines 241-303)

Go durations are nanosecond counts; the float64 multiplier is carried as an
exact fraction `mulNum / mulDen` (the source instantiates it at 2.0, for which
float64 multiplication on the tested range is exact), with `Nat` division as
the truncation applied by the `time.Duration` conversion. -/

structure ExponentialBackoff where
  initial : Nat
  maxDelay : Nat
  mulNum : Nat
  mulDen : Nat
  maxAttempts : Int
  currentBackoff : Nat
  attemptCount : Int
deriving DecidableEq

/-- NewExponentialBackoff. -/
def newExponentialBackoff (initial maxDelay : Nat) (mulNum mulDen : Nat)
    (maxAttempts : Int) : ExponentialBackoff :=
  { initial := initial, maxDelay := maxDelay, mulNum := mulNum, mulDen := mulDen,
    maxAttempts := maxAttempts, currentBackoff := initial, attemptCount := 0 }

/-- Reset restores the initial delay and zeroes the attempt count. -/
def ExponentialBackoff.reset (e : ExponentialBackoff) : ExponentialBackoff :=
  { e with currentBackoff := e.initial, attemptCount := 0 }

/-- NextBackoff returns the current delay, then advances the state to
`min(current * multiplier, max)`; once the attempt budget is exhausted it
returns zero and leaves the state unchanged. -/
def ExponentialBackoff.nextBackoff (e : ExponentialBackoff) : Nat × ExponentialBackoff :=
  if e.attemptCount ≥ e.maxAttempts ∧ e.maxAttempts > 0 then (0, e)
  else
    let current := e.currentBackoff
    let raw := e.currentBackoff * e.mulNum / e.mulDen
    let next := if raw > e.maxDelay then e.maxDelay else raw
    (current, { e with currentBackoff := next, attemptCount := e.attemptCount + 1 })

/-- ShouldAttempt. -/
def ExponentialBackoff.shouldAttempt (e : ExponentialBackoff) : Bool :=
  decide (e.maxAttempts ≤ 0) || decide (e.attemptCount < e.maxAttempts)

/-- The delays returned by `n` successive NextBackoff calls, with the final state. -/
def backoffTrace (e : ExponentialBackoff) : Nat → List Nat × ExponentialBackoff
  | 0 => ([], e)
  | n + 1 =>
    let step := e.nextBackoff
    let rest := backoffTrace step.2 n
    (step.1 :: rest.1, rest.2)

/-- Claim C6: successive NextBackoff calls at initial=100ms, max=1s,
multiplier=2.0, maxAttempts=5 yield 100, 200, 400, 800, 1000 ms; after the
budget is exhausted NextBackoff returns zero without changing state and
ShouldAttempt is false; Reset makes the next call return the initial delay
again; and in general NextBackoff returns the current delay and advances it to
`min(current * multiplier, max)`. -/
theorem c6_exponential_backoff :
    (∀ e : ExponentialBackoff,
      (¬(e.attemptCount ≥ e.maxAttempts ∧ e.maxAttempts > 0) →
        e.nextBackoff.1 = e.currentBackoff ∧
        e.nextBackoff.2.currentBackoff =
          min (e.currentBackoff * e.mulNum / e.mulDen) e.maxDelay ∧
        e.nextBackoff.2.attemptCount = e.attemptCount + 1) ∧
      (e.attemptCount ≥ e.maxAttempts ∧ e.maxAttempts > 0 →
        e.nextBackoff = (0, e) ∧ e.shouldAttempt = false) ∧
      e.reset.nextBackoff.1 = e.initial)
    ∧ (backoffTrace (newExponentialBackoff 100000000 1000000000 2 1 5) 5).1
        = [100000000, 200000000, 400000000, 800000000, 1000000000]
    ∧ ((backoffTrace (newExponentialBackoff 100000000 1000000000 2 1 5) 5).2.nextBackoff).1 = 0
    ∧ ((backoffTrace (newExponentialBackoff 100000000 1000000000 2 1 5) 5).2.nextBackoff).2
        = (backoffTrace (newExponentialBackoff 100000000 1000000000 2 1 5) 5).2
    ∧ (backoffTrace (newExponentialBackoff 100000000 1000000000 2 1 5) 5).2.shouldAttempt
        = false := by
  refine ⟨?_, by decide, by decide, by decide, by decide⟩
  intro e
  refine ⟨?_, ?_, ?_⟩
  · intro h
    rw [ExponentialBackoff.nextBackoff, if_neg h]
    refine ⟨rfl, ?_, rfl⟩
    show (if e.currentBackoff * e.mulNum / e.mulDen > e.maxDelay then e.maxDelay
      else e.currentBackoff * e.mulNum / e.mulDen) = _
    by_cases hc : e.currentBackoff * e.mulNum / e.mulDen > e.maxDelay
    · rw [if_pos hc]
      exact (min_eq_right (le_of_lt hc)).symm
    · rw [if_neg hc]
      exact (min_eq_left (le_of_not_lt hc)).symm
  · intro h
    constructor
    · rw [ExponentialBackoff.nextBackoff, if_pos h]
    · unfold ExponentialBackoff.shouldAttempt
      have h1 : ¬ e.maxAttempts ≤ 0 := not_le.mpr h.2
      have h2 : ¬ e.attemptCount < e.maxAttempts := not_lt.mpr h.1
      simp [h1, h2]
  · rw [ExponentialBackoff.nextBackoff]
    have : ¬((e.reset).attemptCount ≥ (e.reset).maxAttempts ∧ (e.reset).maxAttempts > 0) := by
      intro h
      have h0 : (e.reset).attemptCount = 0 := rfl
      rw [h0] at h
      exact absurd h.2 (not_lt.mpr h.1)
    rw [if_neg this]
    rfl

/-- Witness for C6 at a concrete state with attempts remaining. -/
theorem c6_exponential_backoff_witness :
    (newExponentialBackoff 100000000 1000000000 2 1 5).nextBackoff.1
      = (newExponentialBackoff 100000000 1000000000 2 1 5).currentBackoff
    ∧ (newExponentialBackoff 100000000 1000000000 2 1 5).nextBackoff.2.currentBackoff
      = min ((newExponentialBackoff 100000000 1000000000 2 1 5).currentBackoff * 2 / 1)
          1000000000 :=
  let h := (c6_exponential_backoff.1 (newExponentialBackoff 100000000 1000000000 2 1 5)).1
    (by decide)
  ⟨h.1, h.2.1⟩

/-! ## Backend selection and cross-prefix configuration
(src/unnamed/part_013: detectBackend, getEnvWithPrefix)

The process environment is a total function from variable names to values;
`os.Getenv` of an unset variable yields `""`. -/

abbrev Env := String → String

inductive BackendType
  | unknown
  | vaultFlavor
  | openBao
deriving DecidableEq

/-- detectBackend: OpenBao wins when both addresses are set (with a logged
conflict warning, returned here as the Bool), Vault when only VAULT_ADDR is
set, and a configuration error when neither is set. -/
def detectBackend (env : Env) : Except String (BackendType × Bool) :=
  if env ("BAO_ADDR") ≠ "" ∧ env ("VAULT_ADDR") ≠ "" then .ok (.openBao, true)
  else if env ("BAO_ADDR") ≠ "" then .ok (.openBao, false)
  else if env ("VAULT_ADDR") ≠ "" then .ok (.vaultFlavor, false)
  else .error ("no secrets backend configured: set either BAO_ADDR or VAULT_ADDR")

/-- getEnvWithPrefix: primary-prefix variable first, then the alternate
prefix (BAO for VAULT and vice versa; no fallback for other prefixes),
then the supplied fallback value. -/
def getEnvWithPrefix (env : Env) (pfx key fallback : String) : String :=
  let envKey := pfx ++ "_" ++ key
  if env envKey ≠ "" then env envKey
  else
    let altPfx := if pfx = "VAULT" then "BAO" else if pfx = "BAO" then "VAULT" else ""
    if altPfx = "" then fallback
    else
      let altKey := altPfx ++ "_" ++ key
      if env altKey ≠ "" then env altKey else fallback

/-- Claim C8: backend selection as a function of the address variables, and
cross-prefix fallback of every configuration lookup. -/
theorem c8_backend_selection (env : Env) :
    (env ("BAO_ADDR") = "" → env ("VAULT_ADDR") ≠ "" →
      detectBackend env = .ok (.vaultFlavor, false))
    ∧ (env ("BAO_ADDR") ≠ "" → env ("VAULT_ADDR") ≠ "" →
      detectBackend env = .ok (.openBao, true))
    ∧ (env ("BAO_ADDR") = "" → env ("VAULT_ADDR") = "" →
      detectBackend env =
        .error ("no secrets backend configured: set either BAO_ADDR or VAULT_ADDR"))
    ∧ (∀ key fallback, env ("VAULT_" ++ key) = "" →
      getEnvWithPrefix env ("VAULT") key fallback =
        if env ("BAO_" ++ key) ≠ "" then env ("BAO_" ++ key) else fallback)
    ∧ (∀ key fallback, env ("BAO_" ++ key) = "" →
      getEnvWithPrefix env ("BAO") key fallback =
        if env ("VAULT_" ++ key) ≠ "" then env ("VAULT_" ++ key) else fallback) := by
  refine ⟨?_, ?_, ?_, ?_, ?_⟩
  · intro h1 h2
    unfold detectBackend
    rw [if_neg (by simp [h1]), if_neg (by simp [h1]), if_pos h2]
  · intro h1 h2
    unfold detectBackend
    rw [if_pos ⟨h1, h2⟩]
  · intro h1 h2
    unfold detectBackend
    rw [if_neg (by simp [h1]), if_neg (by simp [h1]), if_neg (by simp [h2])]
  · intro key fallback h
    unfold getEnvWithPrefix
    rw [show ("VAULT" : String) ++ "_" = "VAULT_" from rfl]
    rw [if_neg (by simp [h])]
    rw [if_neg (by decide)]
    rw [show (if ("VAULT" : String) = "VAULT" then "BAO"
      else if ("VAULT" : String) = "BAO" then "VAULT" else "") = "BAO" from by decide]
    rw [show (("BAO" : String) ++ "_" ++ key) = "BAO_" ++ key from by
      rw [show ("BAO" : String) ++ "_" = "BAO_" from rfl]]
  · intro key fallback h
    unfold getEnvWithPrefix
    rw [show ("BAO" : String) ++ "_" = "BAO_" from rfl]
    rw [if_neg (by simp [h])]
    rw [if_neg (by decide)]
    rw [show (if ("BAO" : String) = "VAULT" then "BAO"
      else if ("BAO" : String) = "BAO" then "VAULT" else "") = "VAULT" from by decide]
    rw [show (("VAULT" : String) ++ "_" ++ key) = "VAULT_" ++ key from by
      rw [show ("VAULT" : String) ++ "_" = "VAULT_" from rfl]]

def c8SampleEnv : Env :=
  fun k => if k = "VAULT_ADDR" then "http://vault:8200"
    else if k = "BAO_TOKEN" then "tok-1" else ""

/-- Witness for C8 at a concrete environment: only VAULT_ADDR set, so the
Vault flavor is selected, and a VAULT-prefixed lookup of TOKEN falls back to
BAO_TOKEN. -/
theorem c8_backend_selection_witness :
    detectBackend c8SampleEnv = .ok (.vaultFlavor, false)
    ∧ getEnvWithPrefix c8SampleEnv ("VAULT") ("TOKEN") ("") =
        (if c8SampleEnv ("BAO_TOKEN") ≠ "" then c8SampleEnv ("BAO_TOKEN") else ("")) :=
  ⟨(c8_backend_selection c8SampleEnv).1 (by decide) (by decide),
   by
    rw [(c8_backend_selection c8SampleEnv).2.2.2.1 ("TOKEN") ("") (by decide)]
    rfl⟩

/-! ## Template-hash utilities
(src/utils/utils.go: SortedKeysMapString, SecretHashString, CreateFakeHash)

The text/template+sprig renderer and the md5 hex digest are external
libraries; they enter as function parameters. `render k v` is the result of
parsing template body `v` under name `k` and executing it against the fake
username/password pair, `none` marking a parse or execute error; `md5hex` is
`hex(md5(s))`. Both are deterministic functions in Go. -/

/-- SortedKeysMapString: the keys, sorted lexicographically. -/
def sortedKeysMapString (m : SMap) : List String :=
  List.insertionSort (fun a b => a ≤ b) (keysOf m)

/-- SecretHashString: concatenate key then value over sorted keys, digest. -/
def secretHashString (md5hex : String → String) (m : SMap) : String :=
  md5hex ((sortedKeysMapString m).foldl (fun s k => s ++ k ++ annGet m k) (""))

/-- The loop of CreateFakeHash: render every entry, or fail on the first
parse/render error. -/
def renderAll (render : String → String → Option String) : SMap → Option SMap
  | [] => some []
  | kv :: rest =>
    match render kv.1 kv.2 with
    | none => none
    | some out =>
      match renderAll render rest with
      | none => none
      | some d => some ((kv.1, out) :: d)

/-- CreateFakeHash: hash of the map rendered against fake credentials;
the empty string on any template parse or render error. -/
def createFakeHash (render : String → String → Option String)
    (md5hex : String → String) (m : SMap) : String :=
  match renderAll render m with
  | none => ""
  | some data => secretHashString md5hex data

/-- The template-change test of the DbSecret reconciler
(src/unnamed/part_011 lines 174-179): only fires when both the new and the
stored hash are non-empty and differ. -/
def hashChangeDetected (newHash storedHash : String) : Bool :=
  decide (newHash ≠ "") && decide (storedHash ≠ "") && decide (newHash ≠ storedHash)

theorem renderAll_eq_none (render : String → String → Option String) (m : SMap)
    (k v : String) (hmem : (k, v) ∈ m) (hfail : render k v = none) :
    renderAll render m = none := by
  induction m with
  | nil => cases hmem
  | cons kv rest ih =>
    rcases List.mem_cons.mp hmem with h | h
    · have : render kv.1 kv.2 = none := by
        rw [show kv = (k, v) from h.symm]
        exact hfail
      simp [renderAll, this]
    · cases hr : render kv.1 kv.2 with
      | none => simp [renderAll, hr]
      | some out => simp [renderAll, hr, ih h]

theorem renderAll_of_all_some (render : String → String → Option String) (m : SMap)
    (h : ∀ kv ∈ m, render kv.1 kv.2 ≠ none) :
    renderAll render m =
      some (m.map (fun kv => (kv.1, (render kv.1 kv.2).getD ("")))) := by
  induction m with
  | nil => rfl
  | cons kv rest ih =>
    cases hr : render kv.1 kv.2 with
    | none => exact absurd hr (h kv (List.mem_cons_self kv rest))
    | some out =>
      have := ih (fun kv2 hm => h kv2 (List.mem_cons_of_mem kv hm))
      simp [renderAll, hr, this]

theorem foldl_hash_congr (f g : String → String) (l : List String)
    (h : ∀ k ∈ l, f k = g k) :
    ∀ s, l.foldl (fun a k => a ++ k ++ f k) s = l.foldl (fun a k => a ++ k ++ g k) s := by
  induction l with
  | nil => intro s; rfl
  | cons x xs ih =>
    intro s
    rw [List.foldl_cons, List.foldl_cons, h x (List.mem_cons_self x xs)]
    exact ih (fun k hk => h k (List.mem_cons_of_mem x hk)) _

theorem keysOf_map_rendered (render : String → String → Option String) (m : SMap) :
    keysOf (m.map (fun kv => (kv.1, (render kv.1 kv.2).getD ("")))) = keysOf m := by
  simp [keysOf, List.map_map]

/-- secretHashString only depends on the map as a finite function. -/
theorem secretHashString_eq_of_perm (md5hex : String → String) (d1 d2 : SMap)
    (hp : d1.Perm d2) (hnd : (keysOf d1).Nodup) :
    secretHashString md5hex d1 = secretHashString md5hex d2 := by
  unfold secretHashString
  have hkeys : sortedKeysMapString d1 = sortedKeysMapString d2 := by
    unfold sortedKeysMapString
    refine List.eq_of_perm_of_sorted ?_ (List.sorted_insertionSort _ _)
      (List.sorted_insertionSort _ _)
    exact ((List.perm_insertionSort _ _).trans (hp.map Prod.fst)).trans
      (List.perm_insertionSort _ _).symm
  rw [hkeys]
  have hvals : ∀ k, annGet d1 k = annGet d2 k := by
    intro k
    unfold annGet
    rw [lookupS_eq_of_perm d1 d2 hp hnd k]
  exact congrArg md5hex
    (foldl_hash_congr (fun k => annGet d1 k) (fun k => annGet d2 k)
      (sortedKeysMapString d2) (fun k _ => hvals k) (""))

/-- Claim C10: CreateFakeHash is deterministic and order-independent over the
entries of the template map (the hash input is built over lexicographically
sorted keys); any entry that fails to parse or render makes it return the
empty string; and an empty hash disables the template-change detection used
by the DbSecret reconciler. -/
theorem c10_fake_hash (render : String → String → Option String)
    (md5hex : String → String) (m1 m2 : SMap) :
    (m1.Perm m2 → (keysOf m1).Nodup →
      createFakeHash render md5hex m1 = createFakeHash render md5hex m2)
    ∧ (∀ k v, (k, v) ∈ m1 → render k v = none →
      createFakeHash render md5hex m1 = "")
    ∧ (∀ stored, hashChangeDetected ("") stored = false) := by
  refine ⟨?_, ?_, ?_⟩
  · intro hp hnd
    by_cases hex : ∃ kv ∈ m1, render kv.1 kv.2 = none
    · rcases hex with ⟨kv, hmem, hfail⟩
      have h1 : renderAll render m1 = none :=
        renderAll_eq_none render m1 kv.1 kv.2 (by simpa using hmem) hfail
      have h2 : renderAll render m2 = none :=
        renderAll_eq_none render m2 kv.1 kv.2 (by simpa using hp.mem_iff.mp hmem) hfail
      simp [createFakeHash, h1, h2]
    · push_neg at hex
      have hall2 : ∀ kv ∈ m2, render kv.1 kv.2 ≠ none :=
        fun kv hm => hex kv (hp.mem_iff.mpr hm)
      unfold createFakeHash
      rw [renderAll_of_all_some render m1 hex, renderAll_of_all_some render m2 hall2]
      exact secretHashString_eq_of_perm md5hex _ _
        (hp.map (fun kv => (kv.1, (render kv.1 kv.2).getD (""))))
        (by rw [keysOf_map_rendered]; exact hnd)
  · intro k v hmem hfail
    unfold createFakeHash
    rw [renderAll_eq_none render m1 k v hmem hfail]
  · intro stored
    simp [hashChangeDetected]

def c10Render (k v : String) : Option String := some (v ++ k)

def c10RenderFail (k v : String) : Option String := none

/-- Witness for C10: two insertion orders of the same template map hash
equally; a failing entry yields the empty hash; the empty hash never
triggers change detection. -/
theorem c10_fake_hash_witness :
    createFakeHash c10Render (fun s => s) [("b", "x"), ("a", "y")]
      = createFakeHash c10Render (fun s => s) [("a", "y"), ("b", "x")]
    ∧ createFakeHash c10RenderFail (fun s => s) [("a", "t")] = ""
    ∧ hashChangeDetected ("") ("zzz") = false :=
  ⟨(c10_fake_hash c10Render (fun s => s) [("b", "x"), ("a", "y")]
      [("a", "y"), ("b", "x")]).1 (by decide) (by decide),
   (c10_fake_hash c10RenderFail (fun s => s) [("a", "t")] []).2.1 ("a") ("t")
      (by decide) rfl,
   (c10_fake_hash c10Render (fun s => s) [] []).2.2 ("zzz")⟩

/-! ## The DbSecret (leased credential) reconciler (src/unnamed/part_011)

The reconcile pass for an active object (lines 136-227) is embedded as a
function from the object spec, the current destination Secret, the clock and
an oracle of backend responses to the ordered trace of backend calls, the
number of write attempts on the destination Secret, and the returned result.
`newHash` stands for `utils.CreateFakeHash(dbSecret.Spec.Template)`, which the
decision logic uses only through string comparisons. -/

inductive BCall
  | lookupLease (leaseId : String)
  | revoke (leaseId : String)
  | renewCall (leaseId : String) (increment : Int)
  | getCreds (path : String)
deriving DecidableEq

inductive RecOutcome
  | requeue
  | errorReturn
deriving DecidableEq

structure RecTrace where
  calls : List BCall
  secretWrites : Nat
  outcome : RecOutcome
deriving DecidableEq

structure DbSecretDef where
  renew : Bool
  role : String
  mount : String
deriving DecidableEq

/-- Backend responses for one pass: Lookup success, Renew success, the two
destination-Secret update results inside renewLease, and the
GetDbCredentials result. -/
structure DbOracle where
  leaseValid : Bool
  renewOk : Bool
  updateOk : Bool
  forceUpdateOk : Bool
  credsOk : Bool
deriving DecidableEq

def digitVal (c : Char) : Option Nat :=
  if '0' ≤ c ∧ c ≤ '9' then some (c.toNat - '0'.toNat) else none

def parseNatDigits (cs : List Char) : Option Nat :=
  match cs with
  | [] => none
  | _ =>
    cs.foldl
      (fun acc c =>
        match acc, digitVal c with
        | some n, some d => some (n * 10 + d)
        | _, _ => none)
      (some 0)

/-- strconv.ParseInt(s, 10, 64) as the annotation values use it: an optional
sign followed by at least one decimal digit, rejecting anything else (the
64-bit range check is not modelled; the annotations hold Unix timestamps and
lease durations far below it). -/
def parseGoInt (s : String) : Option Int :=
  match s.data with
  | [] => none
  | '+' :: rest => (parseNatDigits rest).map (fun n => (n : Int))
  | '-' :: rest => (parseNatDigits rest).map (fun n => -(n : Int))
  | cs => (parseNatDigits cs).map (fun n => (n : Int))

/-- The lease id the reconciler reconstructs:
`mount + "/creds/" + role + "/" + annotation`. -/
def dbLeaseId (sDef : DbSecretDef) (ann : String) : String :=
  sDef.mount ++ "/creds/" ++ sDef.role ++ "/" ++ ann

/-- revokeLease (part_011 lines 230-245). The guard on line 231 is
`if currentSecret == nil || currentSecret.Name != "" { return nil }`, so for
any destination Secret that exists under a name the function returns nil at
once and the backend Revoke below it is never reached. Result: backend calls
made and whether a nil error was returned. -/
def revokeLeaseRun (sDef : DbSecretDef) (cur : Option SecretObj) : List BCall × Bool :=
  match cur with
  | none => ([], true)
  | some cs =>
    if cs.name ≠ "" then ([], true)
    else if annGet cs.annos leaseIdKey = "" then ([], false)
    else ([.revoke (dbLeaseId sDef (annGet cs.annos leaseIdKey))], true)

/-- isLeaseValid (part_011 lines 248-261) together with vault.IsLeaseValid
(part_014 lines 151-166): no backend call when the lease-id annotation is
empty, otherwise one Lookup whose success the oracle supplies. -/
def isLeaseValidRun (sDef : DbSecretDef) (cs : SecretObj) (o : DbOracle) :
    List BCall × Bool :=
  if annGet cs.annos leaseIdKey = "" then ([], false)
  else ([.lookupLease (dbLeaseId sDef (annGet cs.annos leaseIdKey))], o.leaseValid)

/-- The expiry test (part_011 lines 140-150): update when the expires-on
annotation is unparsable, or expired, or within the 120-second grace window. -/
def dbShouldUpdateExpiry (cs : SecretObj) (now : Int) : Bool :=
  match parseGoInt (annGet cs.annos expiresOnKey) with
  | none => true
  | some e => decide (now ≥ e) || decide (now + 120 ≥ e)

/-- renewLease (part_011 lines 264-307): backend calls, write attempts on the
destination Secret (the in-place annotation update, and on its failure the
second update persisting the force-create marker), and whether a nil error
was returned. -/
def renewLeaseRun (sDef : DbSecretDef) (cs : SecretObj) (o : DbOracle) :
    List BCall × Nat × Bool :=
  if annGet cs.annos leaseIdKey = "" then ([], 0, false)
  else
    match parseGoInt (annGet cs.annos leaseDurationKey) with
    | none => ([], 0, false)
    | some inc =>
      if !o.renewOk then
        ([.renewCall (dbLeaseId sDef (annGet cs.annos leaseIdKey)) inc], 0, false)
      else if o.updateOk then
        ([.renewCall (dbLeaseId sDef (annGet cs.annos leaseIdKey)) inc], 1, true)
      else
        ([.renewCall (dbLeaseId sDef (annGet cs.annos leaseIdKey)) inc], 2, o.forceUpdateOk)

/-- The reissue tail of Reconcile (part_011 lines 193-227): best-effort
revocation when an old lease id annotation is present, then GetDbCredentials,
then the upsert (one write attempt) on success; a credential failure returns
an error with no Secret mutated. -/
def dbReissue (sDef : DbSecretDef) (cur : Option SecretObj)
    (callsSoFar : List BCall) (o : DbOracle) : RecTrace :=
  let revCalls :=
    match cur with
    | some cs =>
      if cs.name ≠ "" ∧ annGet cs.annos leaseIdKey ≠ "" then (revokeLeaseRun sDef cur).1
      else []
    | none => []
  let path := sDef.mount ++ "/creds/" ++ sDef.role
  if !o.credsOk then
    { calls := callsSoFar ++ revCalls ++ [.getCreds path], secretWrites := 0,
      outcome := .errorReturn }
  else
    { calls := callsSoFar ++ revCalls ++ [.getCreds path], secretWrites := 1,
      outcome := .requeue }

/-- Reconcile for an active DbSecret (part_011 lines 136-227). -/
def dbReconcileActive (sDef : DbSecretDef) (cur : Option SecretObj) (now : Int)
    (newHash : String) (o : DbOracle) : RecTrace :=
  match cur with
  | some cs =>
    if cs.name ≠ "" then
      let su0 := dbShouldUpdateExpiry cs now
      let lease := isLeaseValidRun sDef cs o
      let su1 := su0 || !lease.2
      let canRenew : Bool :=
        if !lease.2 then false
        else if annGet cs.annos forceCreateKey = "true" then false
        else true
      let su2 := su1 || hashChangeDetected newHash (annGet cs.annos templateHashKey)
      if !su2 then { calls := lease.1, secretWrites := 0, outcome := .requeue }
      else if canRenew && sDef.renew then
        let ren := renewLeaseRun sDef cs o
        { calls := lease.1 ++ ren.1, secretWrites := ren.2.1, outcome := .requeue }
      else dbReissue sDef cur lease.1 o
    else dbReissue sDef cur [] o
  | none => dbReissue sDef none [] o

def isRevokeCall : BCall → Bool
  | .revoke _ => true
  | _ => false

def isGetCredsCall : BCall → Bool
  | .getCreds _ => true
  | _ => false

def c1SampleDef : DbSecretDef := { renew := false, role := "ro", mount := "db" }

def c1SampleSecret : SecretObj :=
  { name := "my-secret", labels := [],
    annos := [(expiresOnKey, "x"), (leaseIdKey, "abc")], data := [] }

def c1SampleOracle : DbOracle :=
  { leaseValid := false, renewOk := true, updateOk := true, forceUpdateOk := true,
    credsOk := true }

/-- Claim C1 (code bug): a reissue pass over a named destination Secret with
an invalid lease and a stored lease id reaches GetDbCredentials without ever
reaching the backend Revoke: the inverted guard in revokeLease
(part_011 line 231) returns nil for every named Secret, so the pass performs
a lookup and the credential request but no revocation. -/
theorem c1_reissue_never_revokes :
    dbReconcileActive c1SampleDef (some c1SampleSecret) 0 ("") c1SampleOracle
      = { calls := [.lookupLease ("db/creds/ro/abc"), .getCreds ("db/creds/ro")],
          secretWrites := 1, outcome := .requeue }
    ∧ (dbReconcileActive c1SampleDef (some c1SampleSecret) 0 ("") c1SampleOracle).calls.all
        (fun c => !(isRevokeCall c)) = true
    ∧ (dbReconcileActive c1SampleDef (some c1SampleSecret) 0 ("") c1SampleOracle).calls.any
        isGetCredsCall = true
    ∧ (revokeLeaseRun c1SampleDef (some c1SampleSecret)).1 = [] := by
  decide

def c4SampleDef : DbSecretDef := { renew := true, role := "ro", mount := "db" }

def c4SampleSecret : SecretObj :=
  { name := "my-secret", labels := [],
    annos := [(expiresOnKey, "1000000"), (leaseIdKey, "abc"),
              (forceCreateKey, "true"), (templateHashKey, "h1")], data := [] }

def c4SampleOracle : DbOracle :=
  { leaseValid := true, renewOk := true, updateOk := true, forceUpdateOk := true,
    credsOk := true }

/-- Claim C4 (code bug): with the force-create annotation set to "true" but
the Secret not yet inside the expiry grace window and the template hash
unchanged, the pass is a no-op requeue: no credential request, no renewal and
no write, although the force-create branch only ever runs after recording the
event announcing that new credentials will be issued. -/
theorem c4_force_create_not_expired_noop :
    dbReconcileActive c4SampleDef (some c4SampleSecret) 0 ("h1") c4SampleOracle
      = { calls := [.lookupLease ("db/creds/ro/abc")], secretWrites := 0,
          outcome := .requeue }
    ∧ (dbReconcileActive c4SampleDef (some c4SampleSecret) 0 ("h1") c4SampleOracle).calls.all
        (fun c => !(isGetCredsCall c)) = true := by
  decide

def c2SampleDef : DbSecretDef := { renew := true, role := "ro", mount := "db" }

def c2SampleSecret : SecretObj :=
  { name := "pg-creds", labels := [],
    annos := [(expiresOnKey, "1000000"), (leaseIdKey, "abc"),
              (templateHashKey, "h1")], data := [] }

def c2SampleOracle : DbOracle :=
  { leaseValid := true, renewOk := true, updateOk := true, forceUpdateOk := true,
    credsOk := true }

/-- Counterexample to C2 as stated: a pass over a valid, far-from-expiry,
hash-unchanged leased credential still performs one backend call - the lease
lookup issued by isLeaseValid - so the pass does not make zero backend
calls. It does make zero writes and requeues. -/
theorem c2_noop_pass_calls_backend :
    (dbReconcileActive c2SampleDef (some c2SampleSecret) 0 ("h1") c2SampleOracle).calls
      = [.lookupLease ("db/creds/ro/abc")]
    ∧ (dbReconcileActive c2SampleDef (some c2SampleSecret) 0 ("h1") c2SampleOracle).calls ≠ []
    ∧ (dbReconcileActive c2SampleDef (some c2SampleSecret) 0 ("h1") c2SampleOracle).secretWrites
      = 0
    ∧ (dbReconcileActive c2SampleDef (some c2SampleSecret) 0 ("h1") c2SampleOracle).outcome
      = .requeue := by
  decide

/-- Claim C2 as amended: for a named destination Secret with a stored lease
id whose Lookup succeeds, an expiry annotation parsing to a time more than
120 seconds away, and an unchanged template hash, the reconcile pass performs
exactly one backend call (the lease-validity lookup), zero writes to the
destination Secret, and requeues after the base period. -/
theorem c2_fresh_pass_single_lookup (sDef : DbSecretDef) (cs : SecretObj)
    (now e : Int) (newHash : String) (o : DbOracle)
    (hname : cs.name ≠ "")
    (hparse : parseGoInt (annGet cs.annos expiresOnKey) = some e)
    (hfresh : now + 120 < e)
    (hlease : annGet cs.annos leaseIdKey ≠ "")
    (hvalid : o.leaseValid = true)
    (hhash : newHash = annGet cs.annos templateHashKey) :
    dbReconcileActive sDef (some cs) now newHash o
      = { calls := [.lookupLease (dbLeaseId sDef (annGet cs.annos leaseIdKey))],
          secretWrites := 0, outcome := .requeue } := by
  have hsu0 : dbShouldUpdateExpiry cs now = false := by
    unfold dbShouldUpdateExpiry
    rw [hparse]
    have h1 : ¬ now ≥ e := by omega
    have h2 : ¬ now + 120 ≥ e := by omega
    simp [h1, h2]
  have hlv : isLeaseValidRun sDef cs o
      = ([.lookupLease (dbLeaseId sDef (annGet cs.annos leaseIdKey))], true) := by
    unfold isLeaseValidRun
    rw [if_neg hlease, hvalid]
  have hhc : hashChangeDetected newHash (annGet cs.annos templateHashKey) = false := by
    rw [hhash]
    simp [hashChangeDetected]
  simp only [dbReconcileActive, hsu0, hlv, hhc]
  rw [if_pos hname]
  simp

/-- Witness for the amended C2 at the concrete no-op input. -/
theorem c2_fresh_pass_single_lookup_witness :
    dbReconcileActive c2SampleDef (some c2SampleSecret) 0 ("h1") c2SampleOracle
      = { calls := [.lookupLease
            (dbLeaseId c2SampleDef (annGet c2SampleSecret.annos leaseIdKey))],
          secretWrites := 0, outcome := .requeue } :=
  c2_fresh_pass_single_lookup c2SampleDef c2SampleSecret 0 1000000 ("h1") c2SampleOracle
    (by decide) (by decide) (by decide) (by decide) rfl (by decide)

/-! ## The token lifecycle loop (tokenRenewer, src/unnamed/part_014 lines 43-83)

One iteration of the `for` loop, as a function from that iteration's outcomes
(login result, the two Setenv results, whether the backend is OpenBao, and
whether manageTokenLifecycle returned a fatal error) to the ordered actions
performed and whether the loop continues or the goroutine returns.
`backoffDelay` is an action the loop body can never emit; it is declared so
its absence is expressible. -/

inductive TRAction
  | loginAttempt
  | setEnvToken
  | setVaultTokenCompat
  | setClientToken
  | lifecycleRun
  | errorMetricSet
  | errorMetricClear
  | sleep60
  | backoffDelay
deriving DecidableEq

inductive LoopControl
  | halt
  | continueLoop
deriving DecidableEq

structure TROracle where
  loginOk : Bool
  setEnvOk : Bool
  isOpenBao : Bool
  setCompatOk : Bool
  lifecycleFatal : Bool
deriving DecidableEq

/-- One iteration of the tokenRenewer loop body. Every error path sets the
token-error metric, logs, and returns from the goroutine. -/
def tokenRenewerStep (o : TROracle) : List TRAction × LoopControl :=
  if !o.loginOk then ([.loginAttempt, .errorMetricSet], .halt)
  else if !o.setEnvOk then ([.loginAttempt, .setEnvToken, .errorMetricSet], .halt)
  else if o.isOpenBao && !o.setCompatOk then
    ([.loginAttempt, .setEnvToken, .setVaultTokenCompat, .errorMetricSet], .halt)
  else
    let pre := [TRAction.loginAttempt, .setEnvToken]
      ++ (if o.isOpenBao then [TRAction.setVaultTokenCompat] else [])
      ++ [TRAction.setClientToken, .lifecycleRun]
    if o.lifecycleFatal then (pre ++ [.errorMetricSet], .halt)
    else (pre ++ [.errorMetricClear, .sleep60], .continueLoop)

/-- Run the loop against a list of per-iteration oracles, stopping when the
body returns or the oracles are exhausted. Yields all actions performed and
the number of login attempts made. -/
def tokenRenewerRun : List TROracle → List TRAction × Nat
  | [] => ([], 0)
  | o :: rest =>
    match tokenRenewerStep o with
    | (acts, .halt) => (acts, 1)
    | (acts, .continueLoop) =>
      let r := tokenRenewerRun rest
      (acts ++ r.1, r.2 + 1)

def c3FailOracle : TROracle :=
  { loginOk := false, setEnvOk := true, isOpenBao := false, setCompatOk := true,
    lifecycleFatal := false }

def c3GoodOracle : TROracle :=
  { loginOk := true, setEnvOk := true, isOpenBao := false, setCompatOk := true,
    lifecycleFatal := false }

/-- Counterexample to C3 as stated: a login failure terminates the
tokenRenewer loop after a single attempt - no backoff delay is applied and no
further login attempt follows, even though the next iteration's login would
succeed. -/
theorem c3_login_failure_halts_loop :
    tokenRenewerStep c3FailOracle = ([.loginAttempt, .errorMetricSet], .halt)
    ∧ tokenRenewerRun [c3FailOracle, c3GoodOracle]
      = ([.loginAttempt, .errorMetricSet], 1)
    ∧ (tokenRenewerRun [c3FailOracle, c3GoodOracle]).1.all
        (fun a => !(decide (a = TRAction.backoffDelay))) = true := by
  decide

/-- Claim C3 as amended: in the embedded tokenRenewer, a login failure is not
retried - the iteration performs the login attempt, sets the error metric and
halts the loop - and no iteration of the loop ever applies a backoff delay. -/
theorem c3_login_failure_no_retry (o : TROracle) :
    (o.loginOk = false →
      tokenRenewerStep o = ([.loginAttempt, .errorMetricSet], .halt))
    ∧ (tokenRenewerStep o).1.all
        (fun a => !(decide (a = TRAction.backoffDelay))) = true := by
  constructor
  · intro h
    unfold tokenRenewerStep
    rw [h]
    rfl
  · unfold tokenRenewerStep
    rcases o with ⟨lo, se, ob, sc, lf⟩
    cases lo <;> cases se <;> cases ob <;> cases sc <;> cases lf <;> decide

/-- Witness for the amended C3 at the failing-login oracle. -/
theorem c3_login_failure_no_retry_witness :
    tokenRenewerStep c3FailOracle = ([.loginAttempt, .errorMetricSet], .halt) :=
  (c3_login_failure_no_retry c3FailOracle).1 rfl

/-! ## GetDbCredentials and the credential upsert
(src/unnamed/part_014 lines 184-258; src/unnamed/part_011 line 352)

Backend response data values are JSON-decoded interface values; the Go type
assertion `.(string)` without the ok-form panics on anything else, which the
embedding makes explicit through `GoResult.panicked`. -/

inductive JVal
  | str (s : String)
  | num (n : Int)
  | jnull
deriving DecidableEq

abbrev JMap := List (String × JVal)

def lookupJ : JMap → String → Option JVal
  | [], _ => none
  | kv :: rest, k => if kv.1 = k then some kv.2 else lookupJ rest k

structure SecretResp where
  leaseID : String
  leaseDuration : Int
  data : JMap
deriving DecidableEq

inductive GoResult (α : Type)
  | ok (a : α)
  | goError (msg : String)
  | panicked (msg : String)
deriving DecidableEq

structure VaultDbSecret where
  leaseId : String
  leaseDuration : Int
  username : String
  password : String
  hosts : String
  connectionURL : String
deriving DecidableEq

/-- The Go comparison `v == ""` on an interface value: true only when the
value is the string `""`. -/
def jvalEqEmptyStr : Option JVal → Bool
  | some (.str s) => decide (s = "")
  | _ => false

/-- The Go comparison `v == nil` on an interface map read: true when the key
is missing or holds a decoded null. -/
def jvalIsNil : Option JVal → Bool
  | none => true
  | some .jnull => true
  | _ => false

/-- The unchecked Go type assertion `v.(string)`: `none` marks the runtime
panic it raises on a non-string value. -/
def asGoString : Option JVal → Option String
  | some (.str s) => some s
  | _ => none

def isPrefixList : List Char → List Char → Bool
  | [], _ => true
  | _ :: _, [] => false
  | p :: ps, c :: cs => decide (p = c) && isPrefixList ps cs

/-- strings.Replace(s, pat, rep, 1) for a non-empty pattern. -/
def replaceOnceAux (pat rep : List Char) : List Char → List Char
  | [] => []
  | c :: cs =>
    if isPrefixList pat (c :: cs) then rep ++ (c :: cs).drop pat.length
    else c :: replaceOnceAux pat rep cs

def goReplaceOnce (s pat rep : String) : String :=
  String.mk (replaceOnceAux pat.data rep.data s.data)

/-- strings.Replace(s, sep, rep, -1) for the single-character separator the
source uses (","). -/
def replaceAllChar (sep : Char) (rep : List Char) : List Char → List Char
  | [] => []
  | c :: cs =>
    if c = sep then rep ++ replaceAllChar sep rep cs
    else c :: replaceAllChar sep rep cs

/-- The connection-details read of GetDbCredentials (lines 212-246) at its
interface: the second backend Read either errors (logged and skipped), returns
nil (skipped), returns data whose connection_details assertion fails, or
yields the ok-checked hosts, connection_url and port casts. -/
inductive CfgOutcome
  | readError
  | nilCfg
  | missingDetails
  | details (hosts : Option String) (url : Option String) (port : Option String)
deriving DecidableEq

/-- GetDbCredentials (part_014 lines 184-258): from the two backend reads to
the returned credential, Go error, or runtime panic. The username and
password assertions on lines 238-239 and 251-252 are unchecked. -/
def getDbCredentials (credsRead : Except String (Option SecretResp))
    (cfg : CfgOutcome) : GoResult VaultDbSecret :=
  match credsRead with
  | .error e => .goError e
  | .ok none => .goError ("backend did not return credentials")
  | .ok (some s) =>
    if jvalEqEmptyStr (lookupJ s.data ("username"))
        || jvalEqEmptyStr (lookupJ s.data ("password"))
        || jvalIsNil (lookupJ s.data ("username"))
        || jvalIsNil (lookupJ s.data ("password")) then
      .goError ("backend did not return credentials")
    else
      match cfg with
      | .missingDetails =>
        .goError ("backend did not return the connection details for the database")
      | _ =>
        let hosts0 := match cfg with
          | .details h _ _ => h.getD ("")
          | _ => ""
        let url0 := match cfg with
          | .details _ u _ => u.getD ("")
          | _ => ""
        let port := match cfg with
          | .details _ _ p => p.getD ("")
          | _ => ""
        let urlStep : GoResult String :=
          if url0 ≠ "" then
            match asGoString (lookupJ s.data ("username")),
                asGoString (lookupJ s.data ("password")) with
            | some u, some p =>
              .ok (goReplaceOnce
                (goReplaceOnce url0 ("\x7b\x7busername\x7d\x7d") u)
                ("\x7b\x7bpassword\x7d\x7d") p)
            | _, _ => .panicked ("interface conversion: interface is not string")
          else .ok url0
        match urlStep with
        | .panicked m => .panicked m
        | .goError m => .goError m
        | .ok url1 =>
          let hosts1 :=
            if hosts0 ≠ "" ∧ port ≠ "" then
              String.mk (replaceAllChar ',' (':' :: (port.data ++ [','])) hosts0.data)
                ++ ":" ++ port
            else hosts0
          match asGoString (lookupJ s.data ("username")),
              asGoString (lookupJ s.data ("password")) with
          | some u, some p =>
            .ok { leaseId := s.leaseID, leaseDuration := s.leaseDuration,
                  username := u, password := p, hosts := hosts1,
                  connectionURL := url1 }
          | _, _ => .panicked ("interface conversion: interface is not string")

/-- strings.Split(s, "/"). -/
def splitOnSlash : List Char → List (List Char)
  | [] => [[]]
  | c :: rest =>
    let r := splitOnSlash rest
    if c = '/' then [] :: r
    else
      match r with
      | [] => [[c]]
      | g :: gs => (c :: g) :: gs

def goSplitSlash (s : String) : List String :=
  (splitOnSlash s.data).map (fun cs => String.mk cs)

/-- The lease-id bookkeeping step of upsertSecret (part_011 line 352):
`strings.Split(creds.LeaseId, "/")[3]` - the unchecked index panics whenever
the lease id has fewer than four slash-separated segments. -/
def upsertLeaseIdSegment (leaseId : String) : GoResult String :=
  match (goSplitSlash leaseId)[3]? with
  | some seg => .ok seg
  | none => .panicked ("runtime error: index out of range")

def c7OkResp : SecretResp :=
  { leaseID := "abc", leaseDuration := 3600,
    data := [("username", .str ("u1")), ("password", .str ("p1"))] }

def c7NumResp : SecretResp :=
  { leaseID := "db/creds/ro/xyz", leaseDuration := 3600,
    data := [("username", .num 5), ("password", .str ("p1"))] }

/-- Claim C7 (code bug): the pass can panic on backend responses. A response
whose lease id has fewer than four slash-separated segments flows through
GetDbCredentials unchanged and the upsert's unchecked `Split(...)[3]` index
has no value - a runtime panic - while a well-formed lease id indexes its
fourth segment; and a non-string username passes the nil/empty guard and
panics at the unchecked string assertion. -/
theorem c7_resolution_panics :
    getDbCredentials (.ok (some c7OkResp)) .nilCfg
      = .ok { leaseId := "abc", leaseDuration := 3600, username := "u1",
              password := "p1", hosts := "", connectionURL := "" }
    ∧ upsertLeaseIdSegment ("abc") = .panicked ("runtime error: index out of range")
    ∧ (goSplitSlash ("abc")).length = 1
    ∧ upsertLeaseIdSegment ("db/creds/ro/xyz") = .ok ("xyz")
    ∧ getDbCredentials (.ok (some c7NumResp)) .nilCfg
      = .panicked ("interface conversion: interface is not string") := by
  decide

/-! ## The retry-with-reauth wrapper (spec section 4.6) -/

inductive BErr
  | authDenied (msg : String)
  | otherErr (msg : String)
deriving DecidableEq

structure RetrySim (α : Type) where
  result : Except BErr α
  attempts : Nat
  reauths : Nat
  delays : Nat

/-- Modelled from the spec: the retry-with-reauth wrapper (executeWithRetry)
is not present under src - only its tests are (TestExecuteWithRetry403Errors
in the vault package expects up to 3 attempts, reauthentication on
authorization-denied errors, and a wrapped "operation failed after 3 retries"
error on exhaustion). `op i` is the outcome of the wrapped backend call on
attempt `i`, against the session as recreated for that attempt; `remaining`
counts attempts left of the fixed bound of 3. -/
def executeWithRetryAux {α : Type} (op : Nat → Except BErr α) :
    Nat → Nat → Nat → Nat → Nat → RetrySim α
  | 0, _, a, r, d =>
    { result := .error (.otherErr ("operation failed after 3 retries")),
      attempts := a, reauths := r, delays := d }
  | n + 1, i, a, r, d =>
    match op i with
    | .ok v => { result := .ok v, attempts := a + 1, reauths := r, delays := d }
    | .error (.otherErr m) =>
      { result := .error (.otherErr m), attempts := a + 1, reauths := r, delays := d }
    | .error (.authDenied m) =>
      match n with
      | 0 =>
        { result := .error (.otherErr ("operation failed after 3 retries: " ++ m)),
          attempts := a + 1, reauths := r, delays := d }
      | n2 + 1 => executeWithRetryAux op (n2 + 1) (i + 1) (a + 1) (r + 1) (d + 1)

/-- Modelled from the spec: wraps a backend call with up to 3 attempts,
forced session recreation and a short fixed delay after each
authorization-denied failure, immediate return of any other error, and a
wrapped error once the bound is exhausted. -/
def executeWithRetry {α : Type} (op : Nat → Except BErr α) : RetrySim α :=
  executeWithRetryAux op 3 0 0 0 0

/-- The modelled wrapper has the behavior spec section 4.6 and the tests
describe: any non-authorization error is returned immediately after one
attempt with no reauthentication; an authorization-denied failure forces a
session recreation and a delayed retry; three authorization-denied failures
exhaust the bound and yield the wrapped "operation failed after N retries"
error; and no call ever uses more than 3 attempts. -/
theorem c9_execute_with_retry {α : Type} (op : Nat → Except BErr α) :
    (∀ m, op 0 = .error (.otherErr m) →
      executeWithRetry op
        = { result := .error (.otherErr m), attempts := 1, reauths := 0, delays := 0 })
    ∧ (∀ m v, op 0 = .error (.authDenied m) → op 1 = .ok v →
      executeWithRetry op
        = { result := .ok v, attempts := 2, reauths := 1, delays := 1 })
    ∧ (∀ m0 m1 m2, op 0 = .error (.authDenied m0) → op 1 = .error (.authDenied m1) →
        op 2 = .error (.authDenied m2) →
      executeWithRetry op
        = { result := .error (.otherErr ("operation failed after 3 retries: " ++ m2)),
            attempts := 3, reauths := 2, delays := 2 })
    ∧ (executeWithRetry op).attempts ≤ 3 := by
  refine ⟨?_, ?_, ?_, ?_⟩
  · intro m h
    unfold executeWithRetry executeWithRetryAux
    rw [h]
  · intro m v h0 h1
    unfold executeWithRetry executeWithRetryAux
    rw [h0]
    unfold executeWithRetryAux
    rw [h1]
  · intro m0 m1 m2 h0 h1 h2
    unfold executeWithRetry executeWithRetryAux
    rw [h0]
    unfold executeWithRetryAux
    rw [h1]
    unfold executeWithRetryAux
    rw [h2]
  · unfold executeWithRetry executeWithRetryAux
    cases h0 : op 0 with
    | ok v => simp
    | error e =>
      cases e with
      | otherErr m => simp
      | authDenied m =>
        unfold executeWithRetryAux
        cases h1 : op 1 with
        | ok v => simp
        | error e2 =>
          cases e2 with
          | otherErr m2 => simp
          | authDenied m2 =>
            unfold executeWithRetryAux
            cases h2 : op 2 with
            | ok v => simp
            | error e3 => cases e3 <;> simp

def c9OpOther (i : Nat) : Except BErr String := .error (.otherErr ("boom"))

def c9OpRecover : Nat → Except BErr String
  | 0 => .error (.authDenied ("403 permission denied"))
  | _ => .ok ("retry-success")

/-- The wrapper behavior at concrete operations: a plain error returns at
once; a 403-style error is retried once after reauthentication and then
succeeds. -/
theorem c9_execute_with_retry_witness :
    executeWithRetry c9OpOther
      = { result := .error (.otherErr ("boom")), attempts := 1, reauths := 0, delays := 0 }
    ∧ executeWithRetry c9OpRecover
      = { result := .ok ("retry-success"), attempts := 2, reauths := 1, delays := 1 } :=
  ⟨(c9_execute_with_retry c9OpOther).1 ("boom") rfl,
   (c9_execute_with_retry c9OpRecover).2.1 ("403 permission denied") ("retry-success")
     rfl rfl⟩

/-! ## The reconciler's actual backend call discipline
(src/unnamed/part_014 lines 134-182)

The staged source's RenewDbCredentials, IsLeaseValid and RevokeDbCredentials
call the backend client directly - one client call after the lazy client
initialization and the empty-lease-id check, its error returned as-is, with
no authorization-denied handling, no session recreation and no retry (and
GetDbCredentials, embedded above, returns its Read errors unchanged the same
way). `clientResp` is the outcome of that single client call; the attempt
and reauthentication counts expose the call discipline for comparison with
the wrapper. -/

structure DirectCallSim where
  result : Except BErr Unit
  attempts : Nat
  reauths : Nat

/-- RenewDbCredentials (part_014 lines 134-149): reject an empty lease id,
otherwise one direct client.Renew whose error is returned unchanged. -/
def renewDbCredentialsCall (leaseId : String) (clientResp : Except BErr Unit) :
    DirectCallSim :=
  if leaseId = "" then
    { result := .error (.otherErr ("missing lease id")), attempts := 0, reauths := 0 }
  else { result := clientResp, attempts := 1, reauths := 0 }

/-- RevokeDbCredentials (part_014 lines 168-182): the same single direct
client.Revoke. -/
def revokeDbCredentialsCall (leaseId : String) (clientResp : Except BErr Unit) :
    DirectCallSim :=
  if leaseId = "" then
    { result := .error (.otherErr ("missing lease id")), attempts := 0, reauths := 0 }
  else { result := clientResp, attempts := 1, reauths := 0 }

/-- IsLeaseValid (part_014 lines 151-166): false without a call on an empty
lease id, otherwise one direct client.Lookup, valid exactly when it returned
no error. Yields the number of client attempts and the validity verdict. -/
def isLeaseValidCall (leaseId : String) (clientResp : Except BErr Unit) : Nat × Bool :=
  if leaseId = "" then (0, false)
  else
    (1, match clientResp with
      | .ok _ => true
      | .error _ => false)

/-- Claim C9 (code bug): the Dynamic-Credential Reconciler's backend calls do
not go through a retry-with-reauth wrapper. On an authorization-denied client
error, RenewDbCredentials and RevokeDbCredentials return the raw 403 error
after exactly one attempt with no session recreation, GetDbCredentials
returns the read error unchanged, and IsLeaseValid reports invalid after its
single lookup - whereas the wrapper the repository's own tests expect
(modelled from spec section 4.6), run against the same always-denying
backend, retries to exhaustion with reauthentication and returns the wrapped
"operation failed after 3 retries" error instead of the raw 403. -/
theorem c9_backend_calls_bypass_retry_wrapper :
    renewDbCredentialsCall ("db/creds/ro/abc")
        (.error (.authDenied ("403 permission denied")))
      = { result := .error (.authDenied ("403 permission denied")),
          attempts := 1, reauths := 0 }
    ∧ revokeDbCredentialsCall ("db/creds/ro/abc")
        (.error (.authDenied ("403 permission denied")))
      = { result := .error (.authDenied ("403 permission denied")),
          attempts := 1, reauths := 0 }
    ∧ getDbCredentials (.error ("403 permission denied")) .nilCfg
      = .goError ("403 permission denied")
    ∧ isLeaseValidCall ("db/creds/ro/abc")
        (.error (.authDenied ("403 permission denied")))
      = (1, false)
    ∧ executeWithRetry
        (fun _ => (.error (.authDenied ("403 permission denied")) : Except BErr Unit))
      = { result := .error
            (.otherErr ("operation failed after 3 retries: 403 permission denied")),
          attempts := 3, reauths := 2, delays := 2 } := by
  refine ⟨rfl, rfl, by decide, by decide, rfl⟩
